import Mathlib

/-!
Verification development for the FinSight-RAG frontend workflow store
(`frontend/src/store/useAppStore.ts`), the processing-status polling hook
(`frontend/src/hooks/useProcessingStatus.ts`) and the processing status
panel (`frontend/src/components/ProcessingStatusPanel.tsx`), together with
a model of the backend ingestion orchestrator and retrieval engine that
the design document specifies but that is not yet materialized in the
sources.

Dates are modelled as natural numbers (epoch milliseconds); JavaScript
numbers used in exact arithmetic are modelled as rationals; `Map` and
`Set` are modelled as insertion-ordered association lists and lists.
-/

namespace FinSight

/-- The three workflow phases of the app store (`type WorkflowPhase`). -/
inductive WorkflowPhase
  | input
  | processing
  | chat
deriving DecidableEq, Repr

/-- The processing pipeline phases (`type ProcessingPhase`). -/
inductive ProcessingPhase
  | scraping
  | parsing
  | chunking
  | vectorizing
  | complete
  | error
deriving DecidableEq, Repr

/-- `ProcessingStatus` from `frontend/src/types/index.ts`. -/
structure ProcessingStatus where
  ticker : String
  phase : ProcessingPhase
  progress : ℚ
  documentsFound : Nat
  documentsProcessed : Nat
  chunksCreated : Nat
  chunksVectorized : Nat
  estimatedTimeRemaining : Option ℚ
  error : Option String
  startedAt : Nat
  completedAt : Option Nat
deriving DecidableEq, Repr

/-- `Company` from `frontend/src/types/index.ts`. -/
structure Company where
  ticker : String
  name : String
  exchange : String
  sector : String
  industry : String
  marketCap : Option ℚ
deriving DecidableEq, Repr

/-- `Citation` from `frontend/src/types/index.ts`; the TypeScript field
`section` is rendered as `sectionLabel` because `section` is a Lean
keyword. -/
structure Citation where
  id : String
  documentTitle : String
  sectionLabel : String
  pageNumber : Option Nat
  excerpt : String
  confidence : ℚ
  url : Option String
deriving DecidableEq, Repr

/-- Message author (`type: 'user' | 'assistant'`). -/
inductive MessageType
  | user
  | assistant
deriving DecidableEq, Repr

/-- `Message` from `frontend/src/types/index.ts`. -/
structure Message where
  id : String
  content : String
  type : MessageType
  timestamp : Nat
  citations : Option (List Citation)
  isLoading : Option Bool
deriving DecidableEq, Repr

/-- `CompanyContext` from `frontend/src/types/index.ts`. -/
structure CompanyContext where
  ticker : String
  name : String
  processingStatus : ProcessingStatus
  documentsAvailable : Nat
  timeRangeProcessed : Nat
deriving DecidableEq, Repr

/-- `CompanyProcessingRequest` from `frontend/src/types/index.ts`. -/
structure CompanyProcessingRequest where
  ticker : String
  timeRange : Nat
deriving DecidableEq, Repr

/-- `WorkflowError` from `useAppStore.ts`. -/
structure WorkflowError where
  phase : WorkflowPhase
  message : String
  details : Option String
  timestamp : Nat
  recoverable : Bool
deriving DecidableEq, Repr

/-- `ProcessingProgress` from `useAppStore.ts`. -/
structure ProcessingProgress where
  phase : ProcessingPhase
  progress : ℚ
  currentStep : String
  estimatedTimeRemaining : Option ℚ
  documentsFound : Nat
  documentsProcessed : Nat
  chunksCreated : Nat
  chunksVectorized : Nat
deriving DecidableEq, Repr

/-- The data fields of the Zustand `AppState` (`useAppStore.ts`), without
the action closures, which are modelled as functions on this state. -/
structure AppState where
  currentPhase : WorkflowPhase
  previousPhase : Option WorkflowPhase
  selectedTicker : String
  selectedTimeRange : Nat
  workflowError : Option WorkflowError
  processingStatus : Option ProcessingStatus
  processingProgress : Option ProcessingProgress
  processingJobId : Option String
  processingStartTime : Option Nat
  processingEndTime : Option Nat
  messages : List Message
  currentSession : String
  isTyping : Bool
  companyContext : Option CompanyContext
  chatEnabled : Bool
  selectedCompanies : List Company
  companyCache : List (String × Company)
  processedCompanies : List String
  sidebarOpen : Bool
  citationPanelOpen : Bool
  currentCitation : Option Citation
deriving DecidableEq, Repr

/-- The initial state of the store (`useAppStore.ts` lines 101-147). -/
def initialState : AppState where
  currentPhase := .input
  previousPhase := none
  selectedTicker := ""
  selectedTimeRange := 3
  workflowError := none
  processingStatus := none
  processingProgress := none
  processingJobId := none
  processingStartTime := none
  processingEndTime := none
  messages := []
  currentSession := ""
  isTyping := false
  companyContext := none
  chatEnabled := false
  selectedCompanies := []
  companyCache := []
  processedCompanies := []
  sidebarOpen := false
  citationPanelOpen := false
  currentCitation := none

/-- `canTransitionTo` from `useAppStore.ts` (lines 108-123): `input` is
always reachable, `processing` only from `input`, and `chat` only from
`processing` with a `complete` processing status and a company context. -/
def canTransitionTo (s : AppState) : WorkflowPhase → Bool
  | .input => true
  | .processing => s.currentPhase == .input
  | .chat =>
    s.currentPhase == .processing
      && (match s.processingStatus with
          | some st => st.phase == .complete
          | none => false)
      && s.companyContext.isSome

/-- `enableChat` from `useAppStore.ts`. -/
def enableChat (s : AppState) : AppState :=
  { s with chatEnabled := true }

/-- `disableChat` from `useAppStore.ts`. -/
def disableChat (s : AppState) : AppState :=
  { s with chatEnabled := false }

/-- `setWorkflowPhase` from `useAppStore.ts` (lines 282-297): guarded by
`canTransitionTo` unless forced; returns the new state and the Boolean
result of the call. -/
def setWorkflowPhase (s : AppState) (phase : WorkflowPhase) (force : Bool) :
    AppState × Bool :=
  if !force && !canTransitionTo s phase then (s, false)
  else
    ({ s with
        previousPhase := some s.currentPhase
        currentPhase := phase
        workflowError := none }, true)

/-- `transitionToPhase` from `useAppStore.ts` (lines 299-340): per-phase
cleanup followed by `setWorkflowPhase` (the success path; no exception is
raised by the modelled cleanup). -/
def transitionToPhase (s : AppState) (phase : WorkflowPhase) :
    AppState × Bool :=
  if !canTransitionTo s phase then (s, false)
  else
    let s1 :=
      match phase with
      | .input =>
        { s with
            processingStatus := none
            processingProgress := none
            companyContext := none
            chatEnabled := false }
      | .processing => s
      | .chat => enableChat s
    setWorkflowPhase s1 phase false

/-- `updateProcessingStatus` from `useAppStore.ts` (lines 206-216): stores
the given status verbatim, then auto-transitions to the chat phase when
the status is `complete` and a company context exists. -/
def updateProcessingStatus (s : AppState) (status : ProcessingStatus) :
    AppState :=
  let s1 := { s with processingStatus := some status }
  if status.phase == .complete then
    match s1.companyContext with
    | some _ => (transitionToPhase s1 .chat).1
    | none => s1
  else s1

/-- `markCompanyAsProcessed` from `useAppStore.ts` (`Set.add` keeps the
first occurrence). -/
def markCompanyAsProcessed (s : AppState) (ticker : String) : AppState :=
  { s with
      processedCompanies :=
        if ticker ∈ s.processedCompanies then s.processedCompanies
        else s.processedCompanies ++ [ticker] }

/-- `completeProcessing` from `useAppStore.ts` (lines 226-241). -/
def completeProcessing (s : AppState) (companyContext : CompanyContext)
    (now : Nat) : AppState :=
  let s1 :=
    { s with
        previousPhase := some s.currentPhase
        currentPhase := .chat
        companyContext := some companyContext
        processingStatus := some companyContext.processingStatus
        processingEndTime := some now
        chatEnabled := true
        workflowError := none }
  markCompanyAsProcessed s1 companyContext.ticker

/-- `failProcessing` from `useAppStore.ts` (lines 243-261). -/
def failProcessing (s : AppState) (error : String) (details : Option String)
    (now : Nat) : AppState :=
  { s with
      processingStatus :=
        match s.processingStatus with
        | some st => some { st with phase := .error, error := some error }
        | none => none
      workflowError :=
        some { phase := .processing, message := error, details := details
               timestamp := now, recoverable := true }
      processingEndTime := some now }

/-- Outcome of the `companyAPI.startProcessing` network call. -/
inductive ApiResult (α : Type)
  | ok (value : α)
  | err (message : String)
deriving DecidableEq, Repr

/-- `startProcessing` from `useAppStore.ts` (lines 150-204): refuses to
start unless `canTransitionTo('processing')`; otherwise resets the
processing and chat state, records a fresh `scraping` status, and either
stores the job id returned by the API or fails the processing run. -/
def startProcessing (s : AppState) (request : CompanyProcessingRequest)
    (now : Nat) (api : ApiResult String) : AppState :=
  if !canTransitionTo s .processing then s
  else
    let s1 :=
      { s with
          previousPhase := some s.currentPhase
          currentPhase := .processing
          selectedTicker := request.ticker
          selectedTimeRange := request.timeRange
          processingStartTime := some now
          processingEndTime := none
          processingJobId := none
          workflowError := none
          processingStatus := some
            { ticker := request.ticker, phase := .scraping, progress := 0
              documentsFound := 0, documentsProcessed := 0
              chunksCreated := 0, chunksVectorized := 0
              estimatedTimeRemaining := none, error := none
              startedAt := now, completedAt := none }
          processingProgress := some
            { phase := .scraping, progress := 0
              currentStep := "Initializing document scraping..."
              estimatedTimeRemaining := none
              documentsFound := 0, documentsProcessed := 0
              chunksCreated := 0, chunksVectorized := 0 }
          messages := []
          companyContext := none
          chatEnabled := false }
    match api with
    | .ok jobId => { s1 with processingJobId := some jobId }
    | .err message =>
      failProcessing s1 message (some "Check your network connection and try again") now

/-- `resetWorkflow` from `useAppStore.ts` (lines 263-280); Zustand `set`
merges, so fields not listed there keep their previous values. -/
def resetWorkflow (s : AppState) : AppState :=
  { s with
      currentPhase := .input
      previousPhase := none
      selectedTicker := ""
      selectedTimeRange := 3
      processingStatus := none
      processingProgress := none
      processingJobId := none
      processingStartTime := none
      processingEndTime := none
      messages := []
      companyContext := none
      currentSession := ""
      chatEnabled := false
      workflowError := none
      processedCompanies := [] }

/-- `sendMessage` from `useAppStore.ts` (lines 382-439): returns without
any state change when chat is not enabled or no company context exists;
otherwise appends the user message and the placeholder assistant
response. -/
def sendMessage (s : AppState) (message : String) (now : Nat) : AppState :=
  if !s.chatEnabled || s.companyContext.isNone then s
  else
    let userMessage : Message :=
      { id := toString now, content := message, type := .user
        timestamp := now, citations := none, isLoading := none }
    let s1 := { s with messages := s.messages ++ [userMessage], isTyping := true }
    let assistantMessage : Message :=
      { id := toString (now + 1)
        content := "This is a placeholder response. The chat functionality will be implemented in later tasks."
        type := .assistant, timestamp := now
        citations := some [], isLoading := none }
    { s1 with messages := s1.messages ++ [assistantMessage], isTyping := false }

/-- `Map.set` of the company cache: update in place if the key exists,
else append (JavaScript `Map` keeps insertion order). -/
def cacheSet (m : List (String × Company)) (k : String) (v : Company) :
    List (String × Company) :=
  if m.any (fun p => p.1 == k) then
    m.map (fun p => if p.1 == k then (k, v) else p)
  else m ++ [(k, v)]

/-- `selectCompany` from `useAppStore.ts` (lines 454-465): returns the
state unchanged when a company with the same ticker is already selected,
otherwise appends the company and caches it. -/
def selectCompany (s : AppState) (company : Company) : AppState :=
  if s.selectedCompanies.any (fun c => c.ticker == company.ticker) then s
  else
    { s with
        selectedCompanies := s.selectedCompanies ++ [company]
        companyCache := cacheSet s.companyCache company.ticker company }

/-- `removeSelectedCompany` from `useAppStore.ts`. -/
def removeSelectedCompany (s : AppState) (ticker : String) : AppState :=
  { s with
      selectedCompanies := s.selectedCompanies.filter (fun c => c.ticker != ticker) }

/-- `clearSelectedCompanies` from `useAppStore.ts`. -/
def clearSelectedCompanies (s : AppState) : AppState :=
  { s with selectedCompanies := [] }

/-- `cacheCompany` from `useAppStore.ts`. -/
def cacheCompany (s : AppState) (company : Company) : AppState :=
  { s with companyCache := cacheSet s.companyCache company.ticker company }

/-- State of the `useProcessingStatus` hook (`useProcessingStatus.ts`):
the shared store plus the `isPollingRef` flag (the interval handle is
subsumed by the flag). -/
structure HookState where
  store : AppState
  isPolling : Bool
deriving DecidableEq, Repr

/-- `stopPolling` from `useProcessingStatus.ts` (lines 76-82). -/
def stopPolling (h : HookState) : HookState :=
  { h with isPolling := false }

/-- The success path of `fetchStatus` from `useProcessingStatus.ts`
(lines 21-46): the parsed response status is pushed into the store; on
`complete` the hook builds a company context from the response
(`companyName` and `timeRangeProcessed` are the optional response fields,
defaulting to the ticker and 3) and stops polling; on `error` it stops
polling. -/
def fetchStatusOk (h : HookState) (status : ProcessingStatus)
    (companyName : Option String) (timeRangeProcessed : Option Nat)
    (now : Nat) : HookState :=
  let s1 := updateProcessingStatus h.store status
  if status.phase == .complete then
    let s2 := completeProcessing s1
      { ticker := status.ticker
        name := companyName.getD status.ticker
        processingStatus := status
        documentsAvailable := status.documentsProcessed
        timeRangeProcessed := timeRangeProcessed.getD 3 } now
    { store := s2, isPolling := false }
  else if status.phase == .error then
    { store := s1, isPolling := false }
  else
    { h with store := s1 }

/-- The failure path of `fetchStatus` from `useProcessingStatus.ts`
(lines 47-59): the current status, if any, is marked as `error` with the
generic fetch-failure reason, and polling stops. -/
def fetchStatusErr (h : HookState) : HookState :=
  let s1 :=
    match h.store.processingStatus with
    | some st =>
      updateProcessingStatus h.store
        { st with phase := .error, error := some "Failed to fetch processing status" }
    | none => h.store
  { store := s1, isPolling := false }

/-- The success path of `cancelProcessing` from `useProcessingStatus.ts`
(lines 84-100): after the cancel request succeeds, polling stops and the
current status, if any, is marked as `error` with the cancellation
reason. -/
def cancelProcessing (h : HookState) : HookState :=
  let h1 := stopPolling h
  match h1.store.processingStatus with
  | some st =>
    { h1 with
        store := updateProcessingStatus h1.store
          { st with phase := .error, error := some "Processing cancelled by user" } }
  | none => h1

/-- The `key` fields of `PHASE_STEPS` from `ProcessingStatusPanel.tsx`. -/
def PHASE_STEPS : List ProcessingPhase :=
  [.scraping, .parsing, .chunking, .vectorizing]

/-- `getCurrentStepIndex` from `ProcessingStatusPanel.tsx` (lines
118-120): `findIndex` returns -1 when the phase is not a step key. -/
def getCurrentStepIndex (status : ProcessingStatus) : Int :=
  match PHASE_STEPS.findIdx? (fun k => k == status.phase) with
  | some i => (i : Int)
  | none => -1

/-- `getPhaseProgress` from `ProcessingStatusPanel.tsx` (lines 122-151):
base progress per completed step plus an intra-phase component derived
from the counters, capped at 100. -/
def getPhaseProgress (status : ProcessingStatus) : ℚ :=
  let stepIndex := getCurrentStepIndex status
  if stepIndex = -1 then 0
  else
    let baseProgress : ℚ := (stepIndex : ℚ) / (PHASE_STEPS.length : ℚ) * 100
    let phaseProgress : ℚ :=
      match status.phase with
      | .scraping =>
        if 0 < status.documentsFound then
          ((status.documentsProcessed : ℚ) / (status.documentsFound : ℚ))
            * (100 / (PHASE_STEPS.length : ℚ))
        else 0
      | .parsing =>
        if 0 < status.documentsFound then
          ((status.documentsProcessed : ℚ) / (status.documentsFound : ℚ))
            * (100 / (PHASE_STEPS.length : ℚ))
        else 0
      | .chunking =>
        if 0 < status.documentsProcessed then
          ((status.chunksCreated : ℚ) / ((status.documentsProcessed : ℚ) * 10))
            * (100 / (PHASE_STEPS.length : ℚ))
        else 0
      | .vectorizing =>
        if 0 < status.chunksCreated then
          ((status.chunksVectorized : ℚ) / (status.chunksCreated : ℚ))
            * (100 / (PHASE_STEPS.length : ℚ))
        else 0
      | _ => 0
    min (baseProgress + phaseProgress) 100

/-- `calculateEstimatedTimeRemaining` from `ProcessingStatusPanel.tsx`
(lines 153-169): a truthy server-supplied estimate wins; otherwise an
estimate is produced only when the processing rate is positive, more than
30 seconds have elapsed, and the phase progress is strictly between 0 and
100. -/
def calculateEstimatedTimeRemaining (status : ProcessingStatus)
    (processingRate elapsedTime : ℚ) : Option ℚ :=
  if (match status.estimatedTimeRemaining with
      | some e => e != 0
      | none => false) then
    status.estimatedTimeRemaining
  else if 0 < processingRate ∧ 30 < elapsedTime then
    let progress := getPhaseProgress status
    if 0 < progress ∧ progress < 100 then
      some (max ((100 - progress) / progress * elapsedTime) 0)
    else none
  else none

/-- Modelled from the spec: `ProcessingJob` of the backend Ingestion
Orchestrator (design document §3 and §4.1), which is specified but not
present in the repository sources; identity is (ticker, timeRangeYears),
terminal phases are `complete` and `error`, and each job carries the
handle returned by `submit`. -/
structure ProcessingJob where
  ticker : String
  timeRangeYears : Nat
  phase : ProcessingPhase
  handle : Nat
deriving DecidableEq, Repr

/-- A job is non-terminal when its phase is neither `complete` nor
`error`. -/
def ProcessingJob.nonTerminal (j : ProcessingJob) : Bool :=
  !(j.phase == .complete || j.phase == .error)

/-- Modelled from the spec: the Orchestrator job table, with a counter
supplying fresh handles. -/
structure OrchestratorState where
  jobs : List ProcessingJob
  nextHandle : Nat
deriving DecidableEq, Repr

/-- Does the job match the identity (ticker, timeRangeYears) and count as
non-terminal? -/
def isActiveFor (ticker : String) (timeRangeYears : Nat)
    (j : ProcessingJob) : Bool :=
  j.ticker == ticker && j.timeRangeYears == timeRangeYears && j.nonTerminal

/-- Modelled from the spec: `submit(ticker, timeRangeYears) -> jobHandle`
of the backend Ingestion Orchestrator (design document §4.1), which is
not present in the repository sources. If a non-terminal job already
exists for the identity, its handle is returned and no new job starts;
if a terminal `complete` job exists, its handle is returned without
re-running the pipeline; otherwise a fresh job is created in the initial
`scraping` phase. -/
def submit (st : OrchestratorState) (ticker : String)
    (timeRangeYears : Nat) : OrchestratorState × Nat :=
  match st.jobs.find? (isActiveFor ticker timeRangeYears) with
  | some j => (st, j.handle)
  | none =>
    match st.jobs.find? (fun j =>
        j.ticker == ticker && j.timeRangeYears == timeRangeYears
          && j.phase == .complete) with
    | some j => (st, j.handle)
    | none =>
      ({ jobs := st.jobs ++
            [{ ticker := ticker, timeRangeYears := timeRangeYears
               phase := .scraping, handle := st.nextHandle }]
         nextHandle := st.nextHandle + 1 }, st.nextHandle)

/-- Modelled from the spec: a context chunk as retrieved from the shared
vector index by the Retrieval & Synthesis Engine (design document §3 and
§4.6), which is not present in the repository sources; `similarity` is
the score of the chunk against the embedded question. -/
structure RetrievedChunk where
  chunkId : String
  ticker : String
  documentTitle : String
  filingType : String
  filedDate : String
  sectionLabel : String
  text : String
  similarity : ℚ
deriving DecidableEq, Repr

/-- Modelled from the spec: the engine configuration — top-K (default 8),
minimum similarity threshold (default 0.7), and the excerpt truncation
length (unspecified by the design document, kept as a parameter). -/
structure EngineConfig where
  topK : Nat
  threshold : ℚ
  excerptLen : Nat
deriving DecidableEq, Repr

/-- Descending similarity order used to rank retrieved chunks. -/
def simGE (a b : RetrievedChunk) : Prop := b.similarity ≤ a.similarity

instance : DecidableRel simGE := fun a b =>
  inferInstanceAs (Decidable (b.similarity ≤ a.similarity))

/-- Modelled from the spec: step (b) of the query algorithm (§4.6) —
restrict the index to entries whose ticker matches, drop entries below
the similarity threshold, rank by similarity, and keep at most top-K. -/
def retrieve (cfg : EngineConfig) (index : List RetrievedChunk)
    (ticker : String) : List RetrievedChunk :=
  let sameTicker := index.filter (fun c => c.ticker == ticker)
  let passing := sameTicker.filter (fun c => decide (cfg.threshold ≤ c.similarity))
  (passing.insertionSort simGE).take cfg.topK

/-- Truncate an excerpt to the configured length. -/
def truncateExcerpt (len : Nat) (text : String) : String :=
  if text.length ≤ len then text else (text.take len) ++ "..."

/-- Modelled from the spec: step (e) of the query algorithm (§4.6) —
build one Citation from one context chunk, carrying a truncated excerpt
and the similarity score as the reported confidence. -/
def mkCitation (cfg : EngineConfig) (c : RetrievedChunk) : Citation :=
  { id := c.chunkId
    documentTitle := c.documentTitle
    sectionLabel := c.sectionLabel
    pageNumber := none
    excerpt := truncateExcerpt cfg.excerptLen c.text
    confidence := c.similarity
    url := none }

/-- Modelled from the spec: `QueryResult` (§3). -/
structure QueryResult where
  answerText : String
  citations : List Citation
  relatedQuestions : List String
deriving DecidableEq, Repr

/-- Modelled from the spec: `answer(question, ticker)` of the Retrieval &
Synthesis Engine (§4.6), abstracting the text-generation capability as a
function from the assembled context and question to the answer text and
the secondary related-questions generation as a further input. When zero
chunks pass the threshold the answer states the limitation and the
citations are empty; otherwise one citation is built per context chunk
actually used. -/
def answer (cfg : EngineConfig) (index : List RetrievedChunk)
    (question ticker : String)
    (generate : List RetrievedChunk → String → String)
    (related : List String) : QueryResult :=
  let context := retrieve cfg index ticker
  if context.isEmpty then
    { answerText := "The available filings do not contain enough information to answer this question."
      citations := []
      relatedQuestions := [] }
  else
    { answerText := generate context question
      citations := context.map (mkCitation cfg)
      relatedQuestions := related }

/-- Position of a processing phase in the fixed forward order
scraping → parsing → chunking → vectorizing → complete, with `error`
terminal and reachable from anywhere. -/
def phaseIdx : ProcessingPhase → Nat
  | .scraping => 0
  | .parsing => 1
  | .chunking => 2
  | .vectorizing => 3
  | .complete => 4
  | .error => 5

/-- An allowed forward step of the pipeline per the design document §4.1:
stay in the phase, move to the immediate successor, or fail to `error`. -/
def stepOK (p q : ProcessingPhase) : Prop :=
  q = p ∨ phaseIdx q = phaseIdx p + 1 ∨ q = .error

/-- The status snapshots a reader observes after each successive
`updateProcessingStatus` call. -/
def observedStatuses : AppState → List ProcessingStatus → List (Option ProcessingStatus)
  | _, [] => []
  | s, u :: us =>
    let s1 := updateProcessingStatus s u
    s1.processingStatus :: observedStatuses s1 us

/-- The counter consistency predicate of the design document §8. -/
def counterOK (st : ProcessingStatus) : Prop :=
  st.documentsProcessed ≤ st.documentsFound ∧
    st.chunksVectorized ≤ st.chunksCreated

instance : DecidablePred counterOK := fun st => by
  unfold counterOK; infer_instance

/-- `transitionToPhase` never changes the stored processing status when
the target is the chat phase. -/
theorem transitionToPhase_chat_status (s : AppState) :
    (transitionToPhase s .chat).1.processingStatus = s.processingStatus := by
  unfold transitionToPhase setWorkflowPhase enableChat
  by_cases h : canTransitionTo s .chat <;> simp [h]
  split <;> rfl

/-- `updateProcessingStatus` always stores the given status verbatim. -/
theorem updateProcessingStatus_status (s : AppState) (u : ProcessingStatus) :
    (updateProcessingStatus s u).processingStatus = some u := by
  unfold updateProcessingStatus
  by_cases h : u.phase == ProcessingPhase.complete <;> simp only [h]
  · cases hc : ({ s with processingStatus := some u } : AppState).companyContext with
    | none => simp [hc]
    | some ctx => simp [hc, transitionToPhase_chat_status]
  · simp

/-- The store is a verbatim projection of the applied update sequence:
the snapshot observed after the i-th update is exactly the i-th update. -/
theorem observedStatuses_eq (s : AppState) (us : List ProcessingStatus) :
    observedStatuses s us = us.map some := by
  induction us generalizing s with
  | nil => rfl
  | cons u us ih =>
    simp [observedStatuses, updateProcessingStatus_status, ih]

/-- A concrete non-terminal orchestrator job used by witnesses. -/
def jobA : ProcessingJob :=
  { ticker := "ACME", timeRangeYears := 3, phase := .chunking, handle := 7 }

/-- A concrete orchestrator state holding `jobA`. -/
def orchA : OrchestratorState := { jobs := [jobA], nextHandle := 8 }

/-- C1: submit is idempotent at the job identity — when a non-terminal
job exists for (ticker, timeRangeYears), `submit` returns the existing
handle and leaves the job table unchanged; and in the store,
`startProcessing` refuses to start (leaves the state untouched) unless
`canTransitionTo('processing')` holds, which is exactly when the
workflow is in the `input` phase. -/
theorem submit_idempotent_nonTerminal (st : OrchestratorState)
    (j : ProcessingJob) (ticker : String) (timeRangeYears : Nat)
    (hj : st.jobs.find? (isActiveFor ticker timeRangeYears) = some j) :
    submit st ticker timeRangeYears = (st, j.handle) ∧
    (∀ (s : AppState) (req : CompanyProcessingRequest) (now : Nat)
        (api : ApiResult String),
      canTransitionTo s .processing = false → startProcessing s req now api = s) ∧
    (∀ s : AppState,
      canTransitionTo s .processing = (s.currentPhase == .input)) := by
  refine ⟨?_, ?_, ?_⟩
  · unfold submit
    rw [hj]
  · intro s req now api h
    unfold startProcessing
    rw [h]
    rfl
  · intro s
    rfl

/-- Witness for C1 at a concrete orchestrator state. -/
theorem submit_idempotent_nonTerminal_witness :
    submit orchA "ACME" 3 = (orchA, 7) :=
  (submit_idempotent_nonTerminal orchA jobA "ACME" 3 (by rfl)).1

/-- C2: the chat phase is reachable only from the processing phase with a
`complete` processing status and a company context; and `sendMessage`
with chat disabled or without a company context returns the state
unchanged, adding no message. -/
theorem chat_requires_complete_processing :
    (∀ s : AppState, canTransitionTo s .chat = true ↔
      (s.currentPhase = .processing ∧
        (∃ st, s.processingStatus = some st ∧ st.phase = .complete) ∧
        s.companyContext.isSome = true)) ∧
    (∀ (s : AppState) (msg : String) (now : Nat),
      (s.chatEnabled = false ∨ s.companyContext = none) →
        sendMessage s msg now = s) := by
  constructor
  · intro s
    unfold canTransitionTo
    cases h : s.processingStatus with
    | none => simp [h]
    | some st => simp [h, and_assoc]
  · intro s msg now h
    unfold sendMessage
    rcases h with h | h
    · simp [h]
    · simp [h]

/-- Witness for C2 at the initial state, where chat is disabled. -/
theorem chat_requires_complete_processing_witness :
    sendMessage initialState "What was revenue last year?" 0 = initialState :=
  chat_requires_complete_processing.2 initialState
    "What was revenue last year?" 0 (Or.inl rfl)

/-- C9: `resetWorkflow` resets exactly the workflow, processing and chat
state — the listed fields take their initial values — while the company
selection, company cache and UI state keep their prior values. -/
theorem resetWorkflow_frame (s : AppState) :
    (resetWorkflow s).currentPhase = .input ∧
    (resetWorkflow s).previousPhase = none ∧
    (resetWorkflow s).selectedTicker = "" ∧
    (resetWorkflow s).selectedTimeRange = 3 ∧
    (resetWorkflow s).processingStatus = none ∧
    (resetWorkflow s).processingProgress = none ∧
    (resetWorkflow s).processingJobId = none ∧
    (resetWorkflow s).processingStartTime = none ∧
    (resetWorkflow s).processingEndTime = none ∧
    (resetWorkflow s).messages = [] ∧
    (resetWorkflow s).companyContext = none ∧
    (resetWorkflow s).currentSession = "" ∧
    (resetWorkflow s).chatEnabled = false ∧
    (resetWorkflow s).workflowError = none ∧
    (resetWorkflow s).processedCompanies = [] ∧
    (resetWorkflow s).selectedCompanies = s.selectedCompanies ∧
    (resetWorkflow s).companyCache = s.companyCache ∧
    (resetWorkflow s).sidebarOpen = s.sidebarOpen ∧
    (resetWorkflow s).citationPanelOpen = s.citationPanelOpen ∧
    (resetWorkflow s).currentCitation = s.currentCitation := by
  refine ⟨rfl, rfl, rfl, rfl, rfl, rfl, rfl, rfl, rfl, rfl,
    rfl, rfl, rfl, rfl, rfl, rfl, rfl, rfl, rfl, rfl⟩

/-- `selectCompany` preserves distinctness of the selected tickers. -/
theorem selectCompany_nodup (s : AppState) (c : Company)
    (h : (s.selectedCompanies.map Company.ticker).Nodup) :
    ((selectCompany s c).selectedCompanies.map Company.ticker).Nodup := by
  unfold selectCompany
  by_cases hmem : s.selectedCompanies.any (fun x => x.ticker == c.ticker) = true
  · rw [if_pos hmem]; exact h
  · rw [if_neg hmem]
    have hnot : c.ticker ∉ s.selectedCompanies.map Company.ticker := by
      intro hc
      rcases List.mem_map.mp hc with ⟨x, hx, hxt⟩
      exact hmem (List.any_eq_true.mpr ⟨x, hx, by simpa using hxt⟩)
    have hdisj : (s.selectedCompanies.map Company.ticker).Disjoint [c.ticker] := by
      intro b hb hb'
      simp only [List.mem_singleton] at hb'
      subst hb'
      exact hnot hb
    show ((s.selectedCompanies ++ [c]).map Company.ticker).Nodup
    rw [List.map_append]
    exact List.Nodup.append h (List.nodup_singleton _) hdisj

/-- C10: `selectCompany` is idempotent at the ticker identity — an
already-selected ticker leaves the state unchanged, selecting the same
company twice equals selecting it once, and the selected tickers stay
pairwise distinct along any sequence of selections from the initial
state. -/
theorem selectCompany_idempotent :
    (∀ (s : AppState) (c : Company),
      s.selectedCompanies.any (fun x => x.ticker == c.ticker) = true →
        selectCompany s c = s) ∧
    (∀ (s : AppState) (c : Company),
      selectCompany (selectCompany s c) c = selectCompany s c) ∧
    (∀ cs : List Company,
      (((cs.foldl selectCompany initialState).selectedCompanies.map
        Company.ticker)).Nodup) := by
  have hfix : ∀ (s : AppState) (c : Company),
      s.selectedCompanies.any (fun x => x.ticker == c.ticker) = true →
        selectCompany s c = s := by
    intro s c h
    unfold selectCompany
    rw [if_pos h]
  have hmem : ∀ (s : AppState) (c : Company),
      (selectCompany s c).selectedCompanies.any
        (fun x => x.ticker == c.ticker) = true := by
    intro s c
    unfold selectCompany
    by_cases h : s.selectedCompanies.any (fun x => x.ticker == c.ticker) = true
    · rw [if_pos h]; exact h
    · rw [if_neg h]
      show ((s.selectedCompanies ++ [c]).any fun x => x.ticker == c.ticker) = true
      simp [List.any_append]
  refine ⟨hfix, ?_, ?_⟩
  · intro s c
    exact hfix (selectCompany s c) c (hmem s c)
  · intro cs
    have general : ∀ (cs : List Company) (s : AppState),
        (s.selectedCompanies.map Company.ticker).Nodup →
        ((cs.foldl selectCompany s).selectedCompanies.map Company.ticker).Nodup := by
      intro cs
      induction cs with
      | nil => intro s h; simpa using h
      | cons c cs ih =>
        intro s h
        exact ih _ (selectCompany_nodup s c h)
    exact general cs initialState (by simp [initialState])

/-- Witness for C10 at a concrete state with one selected company. -/
theorem selectCompany_idempotent_witness :
    selectCompany
      { initialState with selectedCompanies :=
          [{ ticker := "ACME", name := "Acme Corp", exchange := "NYSE"
             sector := "Technology", industry := "Software"
             marketCap := none }] }
      { ticker := "ACME", name := "Acme Corp", exchange := "NYSE"
        sector := "Technology", industry := "Software", marketCap := none } =
    { initialState with selectedCompanies :=
        [{ ticker := "ACME", name := "Acme Corp", exchange := "NYSE"
           sector := "Technology", industry := "Software"
           marketCap := none }] } :=
  selectCompany_idempotent.1 _ _ (by rfl)

/-- A concrete in-flight scraping status. -/
def stScr : ProcessingStatus :=
  { ticker := "ACME", phase := .scraping, progress := 10
    documentsFound := 5, documentsProcessed := 2
    chunksCreated := 0, chunksVectorized := 0
    estimatedTimeRemaining := none, error := none
    startedAt := 0, completedAt := none }

/-- A concrete in-flight parsing status. -/
def stPar : ProcessingStatus :=
  { stScr with phase := .parsing, progress := 40, documentsProcessed := 5 }

/-- A concrete in-flight vectorizing status. -/
def stVec : ProcessingStatus :=
  { stScr with
      phase := .vectorizing
      progress := 80
      documentsProcessed := 5
      chunksCreated := 40
      chunksVectorized := 10 }

/-- A concrete status whose counters violate the consistency invariant
(more documents processed than found). -/
def stBad : ProcessingStatus :=
  { stScr with phase := .parsing, documentsFound := 3, documentsProcessed := 5 }

/-- C3 counterexample: `updateProcessingStatus` stores any status
verbatim, so applying a `vectorizing` update and then a `scraping` update
makes the second observed snapshot report a phase strictly earlier in the
fixed order than the first — the store does not enforce forward-only
phases over arbitrary update sequences. -/
theorem statusRegression_counterexample :
    (observedStatuses initialState [stVec, stScr]).map
        (fun o => o.map ProcessingStatus.phase) =
      [some .vectorizing, some .scraping] ∧
    phaseIdx .scraping < phaseIdx .vectorizing := by
  exact ⟨rfl, by decide⟩

/-- Every phase index is at most the index of `error`. -/
theorem phaseIdx_le_error (p : ProcessingPhase) :
    phaseIdx p ≤ phaseIdx .error := by
  cases p <;> decide

/-- An allowed forward step never decreases the phase index. -/
theorem stepOK_le {p q : ProcessingPhase} (h : stepOK p q) :
    phaseIdx p ≤ phaseIdx q := by
  rcases h with h | h | h
  · subst h; exact le_refl _
  · rw [h]; exact Nat.le_succ _
  · subst h; exact phaseIdx_le_error p

/-- C3 amended: the store projects applied updates verbatim (the i-th
observed snapshot is the i-th update), so whenever the applied sequence
itself only steps forward — each successive phase stays, advances to the
immediate successor, or fails to `error` — no observed snapshot reports a
phase earlier in the order than a previously reported one. -/
theorem observed_phases_monotone (s : AppState) (us : List ProcessingStatus)
    (hchain : us.Chain' (fun u v => stepOK u.phase v.phase)) :
    observedStatuses s us = us.map some ∧
    us.Pairwise (fun u v => phaseIdx u.phase ≤ phaseIdx v.phase) := by
  refine ⟨observedStatuses_eq s us, ?_⟩
  haveI : IsTrans ProcessingStatus
      (fun u v => phaseIdx u.phase ≤ phaseIdx v.phase) :=
    ⟨fun a b c hab hbc => le_trans hab hbc⟩
  exact List.chain'_iff_pairwise.mp (hchain.imp (fun a b h => stepOK_le h))

/-- Witness for C3 (amended) on a forward-stepping concrete sequence. -/
theorem observed_phases_monotone_witness :
    observedStatuses initialState [stScr, stPar] = [some stScr, some stPar] ∧
    List.Pairwise (fun u v => phaseIdx u.phase ≤ phaseIdx v.phase)
      [stScr, stPar] :=
  observed_phases_monotone initialState [stScr, stPar]
    (List.chain'_cons.mpr ⟨Or.inr (Or.inl rfl), List.chain'_singleton _⟩)

/-- C4 counterexample: `updateProcessingStatus` stores a status with
documentsProcessed exceeding documentsFound verbatim, so the observed
snapshot violates the counter consistency invariant — the store performs
no validation. -/
theorem counter_invariant_counterexample :
    (updateProcessingStatus initialState stBad).processingStatus =
        some stBad ∧
    ¬ counterOK stBad := by
  exact ⟨rfl, by decide⟩

/-- The fetchStatus success path always ends with the fetched status as
the stored snapshot. -/
theorem fetchStatusOk_status (h : HookState) (status : ProcessingStatus)
    (companyName : Option String) (timeRangeProcessed : Option Nat)
    (now : Nat) :
    (fetchStatusOk h status companyName timeRangeProcessed now).store.processingStatus =
      some status := by
  unfold fetchStatusOk
  by_cases h1 : status.phase == ProcessingPhase.complete
  · rw [if_pos h1]; rfl
  · rw [if_neg h1]
    by_cases h2 : status.phase == ProcessingPhase.error
    · rw [if_pos h2]; exact updateProcessingStatus_status h.store status
    · rw [if_neg h2]; exact updateProcessingStatus_status h.store status

/-- C4 amended: every observed snapshot satisfies the counter
inequalities provided every applied status does — the store (both
`updateProcessingStatus` and the `fetchStatus` success path) projects the
supplied status verbatim and performs no clamping of its own. -/
theorem counters_consistent (s : AppState) (us : List ProcessingStatus)
    (hok : ∀ u ∈ us, counterOK u) :
    (∀ o ∈ observedStatuses s us, ∀ st, o = some st → counterOK st) ∧
    (∀ (h : HookState) (status : ProcessingStatus)
        (companyName : Option String) (timeRangeProcessed : Option Nat)
        (now : Nat), counterOK status →
      ∀ st, (fetchStatusOk h status companyName timeRangeProcessed now).store.processingStatus =
          some st → counterOK st) := by
  constructor
  · intro o ho st hst
    rw [observedStatuses_eq] at ho
    rcases List.mem_map.mp ho with ⟨u, hu, hou⟩
    rw [← hou] at hst
    injection hst with h2
    rw [← h2]
    exact hok u hu
  · intro h status companyName timeRangeProcessed now hok2 st hst
    rw [fetchStatusOk_status] at hst
    injection hst with h2
    rw [← h2]
    exact hok2

/-- Witness for C4 (amended) on a concrete consistent sequence. -/
theorem counters_consistent_witness : counterOK stPar := by
  have h := (counters_consistent initialState [stScr, stPar] (by decide)).1
  exact h (some stPar) (by decide) stPar rfl

/-- C5: after `cancelProcessing` succeeds on an in-progress job, the
stored status is terminal `error` carrying the distinguishing
cancellation reason — distinct from the generic fetch-failure reason —
and polling for the job has stopped. -/
theorem cancel_terminates_with_reason (h : HookState) (st : ProcessingStatus)
    (hst : h.store.processingStatus = some st) :
    (cancelProcessing h).store.processingStatus =
        some { st with phase := .error
                       error := some "Processing cancelled by user" } ∧
    (cancelProcessing h).isPolling = false ∧
    "Processing cancelled by user" ≠ "Failed to fetch processing status" := by
  unfold cancelProcessing stopPolling
  simp only [hst]
  refine ⟨updateProcessingStatus_status _ _, ?_, by decide⟩
  trivial

/-- Witness for C5 at a concrete polling hook state. -/
theorem cancel_terminates_with_reason_witness :
    (cancelProcessing
        { store := { initialState with processingStatus := some stVec }
          isPolling := true }).store.processingStatus =
      some { stVec with phase := .error
                        error := some "Processing cancelled by user" } ∧
    (cancelProcessing
        { store := { initialState with processingStatus := some stVec }
          isPolling := true }).isPolling = false ∧
    "Processing cancelled by user" ≠ "Failed to fetch processing status" :=
  cancel_terminates_with_reason
    { store := { initialState with processingStatus := some stVec }
      isPolling := true } stVec rfl

/-- Chunks surviving retrieval belong to the requested ticker and sit at
or above the similarity threshold. -/
theorem mem_retrieve (cfg : EngineConfig) (index : List RetrievedChunk)
    (ticker : String) (c : RetrievedChunk)
    (hc : c ∈ retrieve cfg index ticker) :
    c.ticker = ticker ∧ cfg.threshold ≤ c.similarity := by
  unfold retrieve at hc
  have h1 := (List.mem_insertionSort simGE).mp (List.take_subset _ _ hc)
  rcases List.mem_filter.mp h1 with ⟨h2, h3⟩
  rcases List.mem_filter.mp h2 with ⟨_, h4⟩
  exact ⟨by simpa using h4, of_decide_eq_true h3⟩

/-- C6: the answer carries exactly one citation per context chunk
actually used — the citation list is the image of the retrieved context
under `mkCitation`, so its length equals the number of context chunks,
each citation carries the truncated excerpt and the similarity score as
its confidence, and a query answered from a single retrieved chunk
yields exactly that one citation. -/
theorem one_citation_per_chunk (cfg : EngineConfig)
    (index : List RetrievedChunk) (question ticker : String)
    (generate : List RetrievedChunk → String → String)
    (related : List String) :
    ((answer cfg index question ticker generate related).citations =
      (retrieve cfg index ticker).map (mkCitation cfg)) ∧
    ((answer cfg index question ticker generate related).citations.length =
      (retrieve cfg index ticker).length) ∧
    (∀ c ∈ retrieve cfg index ticker,
      (mkCitation cfg c).excerpt = truncateExcerpt cfg.excerptLen c.text ∧
      (mkCitation cfg c).confidence = c.similarity ∧
      cfg.threshold ≤ c.similarity) ∧
    (∀ c, retrieve cfg index ticker = [c] →
      (answer cfg index question ticker generate related).citations =
        [mkCitation cfg c]) := by
  have hcit : (answer cfg index question ticker generate related).citations =
      (retrieve cfg index ticker).map (mkCitation cfg) := by
    unfold answer
    dsimp only
    split
    · next hemp =>
      rw [List.isEmpty_iff.mp hemp]
      rfl
    · rfl
  refine ⟨hcit, by rw [hcit, List.length_map], ?_, ?_⟩
  · intro c hc
    exact ⟨rfl, rfl, (mem_retrieve cfg index ticker c hc).2⟩
  · intro c hc
    rw [hcit, hc]
    rfl

/-- A concrete high-similarity indexed chunk used by the witness. -/
def chunkA : RetrievedChunk :=
  { chunkId := "c1", ticker := "ACME", documentTitle := "ACME 10-K"
    filingType := "10-K", filedDate := "2023-02-01"
    sectionLabel := "financial-statements"
    text := "Revenue for fiscal 2022 was 4.2 billion dollars."
    similarity := 9/10 }

/-- The default engine configuration (top-K 8, threshold 0.7). -/
def defaultConfig : EngineConfig :=
  { topK := 8, threshold := 7/10, excerptLen := 200 }

/-- Witness for C6: one high-similarity chunk yields exactly one
citation. -/
theorem one_citation_per_chunk_witness :
    (answer defaultConfig [chunkA] "What was revenue last year?" "ACME"
        (fun _ _ => "Revenue was 4.2 billion dollars.") []).citations =
      [mkCitation defaultConfig chunkA] :=
  (one_citation_per_chunk defaultConfig [chunkA] "What was revenue last year?"
      "ACME" (fun _ _ => "Revenue was 4.2 billion dollars.") []).2.2.2
    chunkA (by norm_num [retrieve, chunkA, defaultConfig, List.filter,
      List.insertionSort, List.orderedInsert])

/-- A concrete parsing status with a zero denominator
(documentsFound = 0). -/
def stParZero : ProcessingStatus :=
  { stScr with
      phase := .parsing
      progress := 0
      documentsFound := 0
      documentsProcessed := 0 }

/-- C7 counterexample: in the parsing phase with documentsFound = 0,
`getPhaseProgress` displays the completed-phase base 25, not 0 — the
displayed progress is the base plus the scaled counter ratio, not the
bare ratio. -/
theorem phaseProgress_zero_denominator_counterexample :
    getPhaseProgress stParZero = 25 ∧ (25 : ℚ) ≠ 0 := by
  constructor
  · show getPhaseProgress stParZero = 25
    rw [show getPhaseProgress stParZero =
        min (((1 : Int) : ℚ) / 4 * 100 + 0) 100 from rfl]
    norm_num
  · norm_num

/-- C7 amended: `getPhaseProgress` derives progress from the counters
alone — it returns the completed-phase base (25 per completed phase)
plus an intra-phase component equal to the counter ratio scaled into the
25-point band of the phase (documentsProcessed/documentsFound for
scraping and parsing, chunksVectorized/chunksCreated for vectorizing;
component 0 when the denominator is 0), capped at 100. -/
theorem phaseProgress_from_counters (st : ProcessingStatus) :
    (st.phase = .scraping → getPhaseProgress st =
      min (if 0 < st.documentsFound then
            ((st.documentsProcessed : ℚ) / (st.documentsFound : ℚ)) * 25
          else 0) 100) ∧
    (st.phase = .parsing → getPhaseProgress st =
      min (25 + (if 0 < st.documentsFound then
            ((st.documentsProcessed : ℚ) / (st.documentsFound : ℚ)) * 25
          else 0)) 100) ∧
    (st.phase = .vectorizing → getPhaseProgress st =
      min (75 + (if 0 < st.chunksCreated then
            ((st.chunksVectorized : ℚ) / (st.chunksCreated : ℚ)) * 25
          else 0)) 100) := by
  obtain ⟨tk, ph, pr, df, dp, cc, cv, est, er, sa, ca⟩ := st
  refine ⟨?_, ?_, ?_⟩ <;> intro hp <;>
    simp only at hp <;> subst hp <;>
    unfold getPhaseProgress getCurrentStepIndex PHASE_STEPS <;>
    norm_num <;>
    by_cases hdf : 0 < df <;> by_cases hcc : 0 < cc <;>
    simp [hdf, hcc] <;> ring_nf

/-- Witness for C7 (amended) at a half-done scraping status. -/
theorem phaseProgress_from_counters_witness :
    getPhaseProgress stScr =
      min (if 0 < stScr.documentsFound then
            ((stScr.documentsProcessed : ℚ) / (stScr.documentsFound : ℚ)) * 25
          else 0) 100 :=
  (phaseProgress_from_counters stScr).1 rfl

/-- The workflow phase resulting from a chat transition depends only on
the transition guard. -/
theorem transitionToPhase_chat_currentPhase (s : AppState) :
    (transitionToPhase s .chat).1.currentPhase =
      (if canTransitionTo s .chat = true then WorkflowPhase.chat
       else s.currentPhase) := by
  unfold transitionToPhase setWorkflowPhase enableChat
  by_cases h : canTransitionTo s .chat
  · have h2 : canTransitionTo { s with chatEnabled := true } .chat = true := h
    simp [h, h2]
  · simp [h]

/-- C8: without a server-supplied estimate,
`calculateEstimatedTimeRemaining` returns an estimate only when the
processing rate is positive, more than 30 seconds have elapsed, and the
phase progress is strictly between 0 and 100; the returned value is the
throughput-based extrapolation from observed progress and elapsed time;
and the estimate field of a status plays no part in the store's
transition decisions. -/
theorem estimate_advisory (st : ProcessingStatus) (rate elapsed : ℚ)
    (hserver : st.estimatedTimeRemaining = none) :
    ((calculateEstimatedTimeRemaining st rate elapsed).isSome = true ↔
      (0 < rate ∧ 30 < elapsed ∧ 0 < getPhaseProgress st ∧
        getPhaseProgress st < 100)) ∧
    (∀ v, calculateEstimatedTimeRemaining st rate elapsed = some v →
      v = max ((100 - getPhaseProgress st) / getPhaseProgress st * elapsed) 0) ∧
    (∀ (s : AppState) (u : ProcessingStatus) (e : Option ℚ)
        (ph : WorkflowPhase),
      canTransitionTo
          { s with processingStatus := some ({ u with estimatedTimeRemaining := e }) }
          ph =
        canTransitionTo { s with processingStatus := some u } ph) ∧
    (∀ (s : AppState) (u : ProcessingStatus) (e : Option ℚ),
      (updateProcessingStatus s ({ u with estimatedTimeRemaining := e })).currentPhase =
        (updateProcessingStatus s u).currentPhase) := by
  have heval : calculateEstimatedTimeRemaining st rate elapsed =
      (if 0 < rate ∧ 30 < elapsed then
        if 0 < getPhaseProgress st ∧ getPhaseProgress st < 100 then
          some (max ((100 - getPhaseProgress st) / getPhaseProgress st * elapsed) 0)
        else none
      else none) := by
    unfold calculateEstimatedTimeRemaining
    rw [hserver]
    rfl
  refine ⟨?_, ?_, ?_, ?_⟩
  · rw [heval]
    by_cases h1 : 0 < rate ∧ 30 < elapsed
    · by_cases h2 : 0 < getPhaseProgress st ∧ getPhaseProgress st < 100
      · simp [h1, h2]
      · simp only [if_pos h1, if_neg h2, Option.isSome_none]
        constructor
        · intro h; cases h
        · intro h; exact absurd ⟨h.2.2.1, h.2.2.2⟩ h2
    · simp only [if_neg h1, Option.isSome_none]
      constructor
      · intro h; cases h
      · intro h; exact absurd ⟨h.1, h.2.1⟩ h1
  · intro v hv
    rw [heval] at hv
    by_cases h1 : 0 < rate ∧ 30 < elapsed
    · by_cases h2 : 0 < getPhaseProgress st ∧ getPhaseProgress st < 100
      · rw [if_pos h1, if_pos h2] at hv
        injection hv with h3
        exact h3.symm
      · rw [if_pos h1, if_neg h2] at hv
        cases hv
    · rw [if_neg h1] at hv
      cases hv
  · intro s u e ph
    cases ph <;> rfl
  · intro s u e
    unfold updateProcessingStatus
    dsimp only
    by_cases h : u.phase == ProcessingPhase.complete
    · rw [if_pos h, if_pos h]
      cases hc : s.companyContext with
      | none => rfl
      | some ctx =>
        simp only [hc]
        rw [transitionToPhase_chat_currentPhase, transitionToPhase_chat_currentPhase]
        simp [canTransitionTo]
    · rw [if_neg h, if_neg h]

/-- Witness for C8 at a half-done scraping status, rate 1 item/s and 60
seconds elapsed. -/
theorem estimate_advisory_witness :
    (calculateEstimatedTimeRemaining stScr 1 60).isSome = true :=
  (estimate_advisory stScr 1 60 rfl).1.mpr
    ⟨by norm_num, by norm_num,
      by
        rw [show getPhaseProgress stScr =
            min ((((0 : Int) : ℚ)) / 4 * 100 +
              (((2 : Nat) : ℚ) / ((5 : Nat) : ℚ)) * (100 / 4)) 100 from rfl]
        norm_num,
      by
        rw [show getPhaseProgress stScr =
            min ((((0 : Int) : ℚ)) / 4 * 100 +
              (((2 : Nat) : ℚ) / ((5 : Nat) : ℚ)) * (100 / 4)) 100 from rfl]
        norm_num⟩

end FinSight
